import Mathlib

/-!
Verification of the natural-language specification of the TwoThreeLibrary
repository (a persistent 2-3 tree index over an on-disk book store) against
a shallow embedding of its C sources.

Embedding conventions:
* C `int` fields become `Int`; the code performs no overflowing arithmetic on
  them (keys, offsets and counters are only compared, copied, incremented).
* The index file (`FILE *indexFile`) becomes `IndexFile`: its on-disk header
  plus a finite map from byte offsets to the `Node23` records written there,
  plus the file size (`ftell` at `SEEK_END`).  `fread` of a node at an offset
  where nothing was written fails in the C (or yields indeterminate bytes);
  the embedding returns `none` there, and every function that would then act
  on indeterminate data returns `none` (undefined behaviour).
* The data file becomes `DataFile` likewise, mapping slot indices to `Book`
  records; the 8-byte `BookDataFreeNode` image that overlays a freed slot is
  kept in a separate map `freeNext`.
* Recursive C functions take a `fuel : Nat` argument; exhausting it also
  yields `none`.  No claim below is settled by fuel exhaustion.
* `double price` is carried as `priceBits : Int`, the 8-byte on-disk image:
  the core code only ever copies this field, never computes with it.
-/

namespace TwoThree

/-- Node23 from `two_three_tree.h`: one fixed-size 2-3 tree node
(8 consecutive C `int` fields, 32 bytes). -/
structure Node23 where
  nKeys : Int
  left_key : Int
  right_key : Int
  leftBook : Int
  rightBook : Int
  left_child : Int
  middle_child : Int
  right_child : Int
deriving DecidableEq

/-- IndexFileHeader from `two_three_tree.h` (3 consecutive C `int`s, 12 bytes). -/
structure IndexFileHeader where
  rootAddress : Int
  firstEmptyPosition : Int
  headEmptyPosition : Int
deriving DecidableEq

/-- Size in bytes of a `Node23` on disk (8 ints). -/
def nodeSize : Int := 32

/-- Size in bytes of an `IndexFileHeader` on disk (3 ints). -/
def indexHeaderSize : Int := 12

/-- The open index file: the header stored at offset 0, the nodes stored at
their byte offsets, and the file size (`ftell` after `fseek(..., SEEK_END)`). -/
structure IndexFile where
  header : IndexFileHeader
  nodes : List (Int × Node23)
  eof : Int
deriving DecidableEq

/-- loadNode23 (tree_manager.c): `fseek(indexFile, offset, SEEK_SET)` then
`fread` of one `Node23`.  Reading where no node was written yields `none`
(in the C, indeterminate data / a failed read that the code never checks). -/
def loadNode23 (f : IndexFile) (offset : Int) : Option Node23 :=
  f.nodes.lookup offset

/-- saveNode (tree_manager.c): `fseek(indexFile, offset, SEEK_SET)` then
`fwrite` of one `Node23`, extending the file if the offset is at its end. -/
def saveNode (f : IndexFile) (offset : Int) (node : Node23) : IndexFile :=
  { f with
    nodes := (offset, node) :: f.nodes.filter (fun p => p.1 != offset)
    eof := max f.eof (offset + nodeSize) }

/-- saveHeader (file_manager.c), specialised to the index file: `fseek` to 0
and `fwrite` of the header. -/
def saveIndexHeader (f : IndexFile) (header : IndexFileHeader) : IndexFile :=
  { f with header := header }

/-- getRootAddress (tree_manager.c): `readFileHeader` from offset 0, then
return its `rootAddress` field. -/
def getRootAddress (f : IndexFile) : Int :=
  f.header.rootAddress

/-- createNode23 (tree_manager.c): build the node from the nine arguments,
reuse the free-list head if there is one (advancing the in-memory header past
it) else append at `ftell(SEEK_END)`, save the node, and rewrite the header
at offset 0.  The order of the two assignments in the reuse branch is the
source's: `headEmptyPosition` is advanced first, and `nodeOffset` is then read
from the already-advanced header. -/
def createNode23 (f : IndexFile) (leftKey rightKey leftBook rightBook leftChild middleChild rightChild nKeys : Int)
    (header : IndexFileHeader) : Option (IndexFile × IndexFileHeader × Int) :=
  let node : Node23 :=
    ⟨nKeys, leftKey, rightKey, leftBook, rightBook, leftChild, middleChild, rightChild⟩
  if header.headEmptyPosition ≠ -1 then
    match loadNode23 f header.headEmptyPosition with
    | none => none
    | some freeNode =>
      let header := { header with headEmptyPosition := freeNode.left_child }
      let nodeOffset := header.headEmptyPosition
      let f := saveNode f nodeOffset node
      let f := saveIndexHeader f header
      some (f, header, nodeOffset)
  else
    let nodeOffset := f.eof
    let f := saveNode f nodeOffset node
    let f := saveIndexHeader f header
    some (f, header, nodeOffset)

/-- Result of the C search routines, which return a plain `int`:
`found off` is a return of a node offset, `emptyTree` is the `-1` returned
for `rootAddress == -1`, `badRead off` marks the code `fread`ing a node at an
offset where none exists (undefined behaviour in the C), and `outOfFuel` is
the embedding's recursion bound. -/
inductive SearchResult where
  | found (offset : Int)
  | emptyTree
  | badRead (offset : Int)
  | outOfFuel
deriving DecidableEq

/-- searchNode (tree_manager.c): recursive 2-3 descent.  Note the source has
no base case for a `-1` child: when the key is absent it recurses into the
leaf's `-1` child pointer and reads there. -/
def searchNode : Nat → IndexFile → Int → Int → SearchResult
  | 0, _, _, _ => .outOfFuel
  | fuel + 1, f, root, key =>
    match loadNode23 f root with
    | none => .badRead root
    | some node =>
      if node.left_key = key then .found root
      else if node.nKeys = 2 ∧ node.right_key = key then .found root
      else if key < node.left_key then searchNode fuel f node.left_child key
      else if node.nKeys = 1 ∨ key < node.right_key then searchNode fuel f node.middle_child key
      else searchNode fuel f node.right_child key

/-- twoThreeTreeSearch (tree_manager.c): return `-1` (`emptyTree`) when the
header's root address is `-1`, else descend from the root. -/
def twoThreeTreeSearch (fuel : Nat) (f : IndexFile) (key : Int) : SearchResult :=
  let root := getRootAddress f
  if root = -1 then .emptyTree
  else searchNode fuel f root key

/-- addKeyToNodeWithOneKey (tree_manager.c): insert a second key into a
1-key node, keeping the two keys ordered. -/
def addKeyToNodeWithOneKey (node : Node23) (key bookPosition : Int) : Node23 :=
  if node.left_key < key then
    { node with right_key := key, rightBook := bookPosition, nKeys := 2 }
  else
    { node with
      right_key := node.left_key, rightBook := node.leftBook,
      left_key := key, leftBook := bookPosition, nKeys := 2 }

/-- isLeafNode (tree_manager.c): a node is a leaf iff its left child is `-1`. -/
def isLeafNode (node : Node23) : Bool :=
  node.left_child = -1

/-- splitNode (tree_manager.c): split a full node receiving `key`.  The
result is `(file, header, updated parent node, promoted key, right node
offset)`; the source mutates `*parentNode` and `*promotedKey` in place and
returns the offset.  `parentNodeOffset` is accepted and ignored exactly as in
the source (the shrunken node is not written back here). -/
def splitNode (f : IndexFile) (parentNodeOffset : Int) (parentNode : Node23) (key : Int)
    (subarvoreOffset : Int) (header : IndexFileHeader) (leftBookOffset rightBookOffset : Int) :
    Option (IndexFile × IndexFileHeader × Node23 × Int × Int) :=
  let _ := parentNodeOffset
  if key > parentNode.right_key then
    match createNode23 f key (-1) rightBookOffset (-1) subarvoreOffset (-1) (-1) 1 header with
    | none => none
    | some (f, header, rightNodeOffset) =>
      some (f, header,
        { parentNode with
          nKeys := 1, right_key := -1, rightBook := -1,
          right_child := rightNodeOffset, middle_child := -1 },
        parentNode.right_key, rightNodeOffset)
  else if key ≥ parentNode.left_key then
    match createNode23 f parentNode.right_key (-1) parentNode.rightBook (-1) (-1) (-1) (-1) 1 header with
    | none => none
    | some (f, header, rightNodeOffset) =>
      some (f, header,
        { parentNode with
          nKeys := 1, right_key := -1, rightBook := -1,
          right_child := -1, middle_child := rightNodeOffset },
        key, rightNodeOffset)
  else
    match createNode23 f parentNode.right_key (-1) parentNode.rightBook (-1) (-1) (-1) (-1) 1 header with
    | none => none
    | some (f, header, rightNodeOffset) =>
      some (f, header,
        { parentNode with
          nKeys := 1, left_key := key, right_key := -1, rightBook := -1,
          right_child := -1, middle_child := rightNodeOffset },
        parentNode.left_key, rightNodeOffset)

/-- insertKeyAux (tree_manager.c).  The result is `(file, header, updated
node, promoted key cell, returned int)`; the promoted-key cell is `none`
while the C `int *promotedKey` is still uninitialised.  The source returns
the node's own offset from the 1-key absorb paths and `-1` only when a
recursive call returned `-1`, exactly as reproduced here. -/
def insertKeyAux : Nat → IndexFile → Int → Node23 → Int → Option Int → Int → IndexFileHeader → Int → Int →
    Option (IndexFile × IndexFileHeader × Node23 × Option Int × Int)
  | 0, _, _, _, _, _, _, _, _, _ => none
  | fuel + 1, f, parentNodeOffset, parentNode, key, promotedKey, subarvoreOffset, header,
      leftBookOffset, rightBookOffset =>
    if isLeafNode parentNode then
      if parentNode.nKeys = 1 then
        let parentNode := addKeyToNodeWithOneKey parentNode key leftBookOffset
        let f := saveNode f parentNodeOffset parentNode
        some (f, header, parentNode, promotedKey, parentNodeOffset)
      else
        match splitNode f parentNodeOffset parentNode key subarvoreOffset header leftBookOffset rightBookOffset with
        | none => none
        | some (f, header, parentNode, promoted, ret) =>
          some (f, header, parentNode, some promoted, ret)
    else
      let childOffset :=
        if key < parentNode.left_key then parentNode.left_child
        else if parentNode.nKeys = 1 ∨ key < parentNode.right_key then parentNode.middle_child
        else parentNode.right_child
      match loadNode23 f childOffset with
      | none => none
      | some auxTree =>
        match insertKeyAux fuel f childOffset auxTree key promotedKey subarvoreOffset header
            leftBookOffset rightBookOffset with
        | none => none
        | some (f, header, _, promotedKey, auxKey) =>
          if auxKey = -1 then
            some (f, header, parentNode, promotedKey, -1)
          else if parentNode.nKeys = 1 then
            let parentNode := addKeyToNodeWithOneKey parentNode auxKey leftBookOffset
            let f := saveNode f parentNodeOffset parentNode
            some (f, header, parentNode, promotedKey, parentNodeOffset)
          else
            match splitNode f parentNodeOffset parentNode auxKey subarvoreOffset header
                leftBookOffset rightBookOffset with
            | none => none
            | some (f, header, parentNode, promoted, ret) =>
              some (f, header, parentNode, some promoted, ret)

/-- insertKey (tree_manager.c): create a root for an empty tree, else insert
recursively; when the recursion reports a split (a return other than `-1`)
build a new root from `*promotedKey` — which on some paths was never written:
reading it then is undefined behaviour, `none` here. -/
def insertKey (fuel : Nat) (f : IndexFile) (key bookPosition : Int) (header : IndexFileHeader) :
    Option (IndexFile × IndexFileHeader × Int) :=
  let root := getRootAddress f
  if root = -1 then
    match createNode23 f key (-1) bookPosition (-1) (-1) (-1) (-1) 1 header with
    | none => none
    | some (f, header, newRoot) =>
      let header := { header with rootAddress := newRoot }
      let f := saveIndexHeader f header
      some (f, header, newRoot)
  else
    match loadNode23 f root with
    | none => none
    | some rootNode =>
      match insertKeyAux fuel f root rootNode key none (-1) header bookPosition (-1) with
      | none => none
      | some (f, header, rootNode, promotedKey, newRoot) =>
        if newRoot ≠ -1 then
          match promotedKey with
          | none => none
          | some pk =>
            match createNode23 f pk (-1) (-1) (-1) root newRoot (-1) 1 header with
            | none => none
            | some (f, header, newRoot2) =>
              let header := { header with rootAddress := newRoot2 }
              let f := saveIndexHeader f header
              some (f, header, 0)
        else
          let f := saveNode f root rootNode
          some (f, header, 0)

/-- removeKeyFromLeaf (tree_manager.c): drop `key` from a leaf, shifting the
right key left when the left key is removed; `nKeys` is decremented unless
the key matches neither slot. -/
def removeKeyFromLeaf (node : Node23) (key : Int) : Node23 :=
  if node.left_key = key then
    { node with
      left_key := node.right_key, leftBook := node.rightBook,
      right_key := -1, rightBook := -1, nKeys := node.nKeys - 1 }
  else if node.right_key = key then
    { node with right_key := -1, rightBook := -1, nKeys := node.nKeys - 1 }
  else
    node

/-- findParentAux (tree_manager.c): non-recursive test of whether
`nodeAddress` is a child of `parentNode`, gated by interval checks on `key`.
The file argument of the source is unused, as here. -/
def findParentAux (parentAddress : Int) (parentNode : Node23) (nodeAddress key : Int) : Int :=
  if isLeafNode parentNode then -1
  else if parentNode.left_child = nodeAddress then
    if key < parentNode.left_key then parentAddress else -1
  else if parentNode.middle_child = nodeAddress then
    if parentNode.left_key ≤ key ∧ key < parentNode.right_key then parentAddress else -1
  else if parentNode.right_child = nodeAddress then
    if parentNode.right_key ≤ key then parentAddress else -1
  else -1

/-- findParent (tree_manager.c): `-1` for an empty tree or when the node is
the root, else `findParentAux` on the root node with the sentinel key `-1`.
The source's `header` parameter is unused.  `none` models reading a root node
that does not exist. -/
def findParent (f : IndexFile) (nodeAddress : Int) : Option Int :=
  let root := getRootAddress f
  if root = -1 ∨ root = nodeAddress then some (-1)
  else
    match loadNode23 f root with
    | none => none
    | some rootNode => some (findParentAux root rootNode nodeAddress (-1))

/-- findSibling (tree_manager.c): refuse (`-1`) when any of the parent's
three child pointers is `-1`, else middle child for a left or right child,
and for the middle child the left child if the parent has one key, the right
child otherwise.  The source's `header` parameter is unused and kept. -/
def findSibling (f : IndexFile) (parentAddress nodeAddress : Int) (header : IndexFileHeader) :
    Option Int :=
  let _ := header
  match loadNode23 f parentAddress with
  | none => none
  | some parentNode =>
    if parentNode.left_child = -1 ∨ parentNode.middle_child = -1 ∨ parentNode.right_child = -1 then
      some (-1)
    else if parentNode.left_child = nodeAddress then
      some parentNode.middle_child
    else if parentNode.middle_child = nodeAddress then
      if parentNode.nKeys = 1 then some parentNode.left_child else some parentNode.right_child
    else if parentNode.right_child = nodeAddress then
      some parentNode.middle_child
    else
      some (-1)

/-- handleLeafUnderflow (tree_manager.c).  `redistributeKeys` and
`mergeNodes` are called by the source but defined nowhere in the repository
(only these call sites exist), so the embedding abstracts over them: any pair
of functions mapping `(parent, sibling, node, key)` to the three updated
nodes.  No claim below depends on their behaviour.  The result is the updated
`(file, node, header)`; the source mutates its pointers and returns `void`. -/
def handleLeafUnderflow
    (redistributeKeys mergeNodes : Node23 → Node23 → Node23 → Int → Node23 × Node23 × Node23) :
    Nat → IndexFile → Int → Node23 → IndexFileHeader → Int →
    Option (IndexFile × Node23 × IndexFileHeader)
  | 0, _, _, _, _, _ => none
  | fuel + 1, f, nodeAddress, node, header, key =>
    if node.nKeys > 0 then some (f, node, header)
    else
      match findParent f nodeAddress with
      | none => none
      | some parentAddress =>
        if parentAddress = -1 then
          let header := { header with rootAddress := -1 }
          let f := saveIndexHeader f header
          some (f, node, header)
        else
          match loadNode23 f parentAddress with
          | none => none
          | some parentNode =>
            match findSibling f parentAddress nodeAddress header with
            | none => none
            | some siblingAddress =>
              if siblingAddress = -1 then some (f, node, header)
              else
                match loadNode23 f siblingAddress with
                | none => none
                | some siblingNode =>
                  if siblingNode.nKeys = 2 then
                    let (parentNode, siblingNode, node) :=
                      redistributeKeys parentNode siblingNode node key
                    let f := saveNode f parentAddress parentNode
                    let f := saveNode f siblingAddress siblingNode
                    let f := saveNode f nodeAddress node
                    some (f, node, header)
                  else
                    let (parentNode, siblingNode, node) :=
                      mergeNodes parentNode siblingNode node key
                    if parentNode.nKeys = 0 then
                      match handleLeafUnderflow redistributeKeys mergeNodes fuel f parentAddress
                          parentNode header key with
                      | none => none
                      | some (f, parentNode, header) =>
                        let f := saveNode f parentAddress parentNode
                        let f := saveNode f siblingAddress siblingNode
                        let f := saveNode f nodeAddress node
                        some (f, node, header)
                    else
                      let f := saveNode f parentAddress parentNode
                      let f := saveNode f siblingAddress siblingNode
                      let f := saveNode f nodeAddress node
                      some (f, node, header)

/-- findMinInSubtree (tree_manager.c): follow `left_child` pointers until a
leaf and return its left key. -/
def findMinInSubtree : Nat → IndexFile → Node23 → Option Int
  | 0, _, _ => none
  | fuel + 1, f, node =>
    if node.left_child ≠ -1 then
      match loadNode23 f node.left_child with
      | none => none
      | some next => findMinInSubtree fuel f next
    else
      some node.left_key

/-- findInOrderSuccessor (tree_manager.c).  For a 1-key node holding `key`
it returns the node's (absent, `-1`) right key; for a 2-key node holding
`key` on the left it returns the minimum of the subtree under `right_child`;
for `key` on the right it returns `findParent` of the right child (the source
passes `key` where `findParent` expects its unused header pointer). -/
def findInOrderSuccessor (fuel : Nat) (f : IndexFile) (node : Node23) (key : Int) : Option Int :=
  if node.nKeys = 1 then
    if node.left_key = key then some node.right_key else some (-1)
  else if node.left_key = key then
    if node.right_child ≠ -1 then
      match loadNode23 f node.right_child with
      | none => none
      | some rightChild => findMinInSubtree fuel f rightChild
    else some (-1)
  else if node.right_key = key then
    findParent f node.right_child
  else
    some (-1)

/-- replaceKey (tree_manager.c): overwrite whichever key slot equals `key`
with `newKey`; the associated book pointers are not touched.  Returns the
updated node and the C return value (1 = replaced, 0 = key not found). -/
def replaceKey (node : Node23) (key newKey : Int) : Node23 × Int :=
  if node.left_key = key then ({ node with left_key := newKey }, 1)
  else if node.right_key = key then ({ node with right_key := newKey }, 1)
  else (node, 0)

/-- handleEmptyNode (tree_manager.c).  With a non-empty free list it writes a
fresh free node (whose fields other than `left_child` and `nKeys` the source
leaves uninitialised; the embedding pins them to `-1`, and no theorem reads
them) at the current head, then sets the head to that node's `left_child` —
which it had just set to the current head, so the header is unchanged.  With
an empty free list it zeroes the node's key count, writes it at
`firstEmptyPosition` and increments that field by one. -/
def handleEmptyNode (f : IndexFile) (node : Node23) (header : IndexFileHeader) :
    IndexFile × Node23 × IndexFileHeader :=
  if header.headEmptyPosition ≠ -1 then
    let freeNode : Node23 :=
      ⟨0, -1, -1, -1, -1, header.headEmptyPosition, -1, -1⟩
    let f := saveNode f header.headEmptyPosition freeNode
    let header := { header with headEmptyPosition := freeNode.left_child }
    let f := saveIndexHeader f header
    (f, node, header)
  else
    let node := { node with nKeys := 0 }
    let f := saveNode f header.firstEmptyPosition node
    let header := { header with firstEmptyPosition := header.firstEmptyPosition + 1 }
    let f := saveIndexHeader f header
    (f, node, header)

/-- removeKey (tree_manager.c): `-1` when the search fails or the tree is
empty; a leaf root with two keys loses the key directly, a leaf root with one
key goes to `handleLeafUnderflow` (with the key still in place); an internal
root has the key replaced by `findInOrderSuccessor`'s result and the removal
recurses on that value.  The source only ever examines the root node.
Abstracts over the repository's missing `redistributeKeys`/`mergeNodes`
exactly as `handleLeafUnderflow` does. -/
def removeKey
    (redistributeKeys mergeNodes : Node23 → Node23 → Node23 → Int → Node23 × Node23 × Node23) :
    Nat → IndexFile → Int → IndexFileHeader → Option (IndexFile × IndexFileHeader × Int)
  | 0, _, _, _ => none
  | fuel + 1, f, key, header =>
    match twoThreeTreeSearch (fuel + 1) f key with
    | .badRead _ => none
    | .outOfFuel => none
    | .emptyTree => some (f, header, -1)
    | .found _ =>
      if header.rootAddress = -1 then some (f, header, -1)
      else
        match loadNode23 f header.rootAddress with
        | none => none
        | some rootNode =>
          let afterBranch : Option (IndexFile × Node23 × IndexFileHeader) :=
            if isLeafNode rootNode then
              if rootNode.nKeys = 2 then
                let rootNode := removeKeyFromLeaf rootNode key
                let f := saveNode f header.rootAddress rootNode
                some (f, rootNode, header)
              else
                handleLeafUnderflow redistributeKeys mergeNodes fuel f header.rootAddress
                  rootNode header key
            else
              match findInOrderSuccessor fuel f rootNode key with
              | none => none
              | some successorKey =>
                let (rootNode, _) := replaceKey rootNode key successorKey
                let f := saveNode f header.rootAddress rootNode
                match removeKey redistributeKeys mergeNodes fuel f successorKey header with
                | none => none
                | some (f, header, _) => some (f, rootNode, header)
          match afterBranch with
          | none => none
          | some (f, rootNode, header) =>
            if rootNode.nKeys = 0 then
              let (f, _, header) := handleEmptyNode f rootNode header
              some (f, header, 0)
            else
              some (f, header, 0)

/-- twoThreeTreeCountNodesRec (tree_manager.c): one per node, recursing into
two children when `nKeys == 1` and three when `nKeys == 2`. -/
def twoThreeTreeCountNodesRec : Nat → IndexFile → Node23 → Option Int
  | 0, _, _ => none
  | fuel + 1, f, node =>
    if node.nKeys = 1 then
      match loadNode23 f node.left_child, loadNode23 f node.middle_child with
      | some l, some m =>
        match twoThreeTreeCountNodesRec fuel f l, twoThreeTreeCountNodesRec fuel f m with
        | some cl, some cm => some (1 + cl + cm)
        | _, _ => none
      | _, _ => none
    else if node.nKeys = 2 then
      match loadNode23 f node.left_child, loadNode23 f node.middle_child,
          loadNode23 f node.right_child with
      | some l, some m, some r =>
        match twoThreeTreeCountNodesRec fuel f l, twoThreeTreeCountNodesRec fuel f m,
            twoThreeTreeCountNodesRec fuel f r with
        | some cl, some cm, some cr => some (1 + cl + cm + cr)
        | _, _, _ => none
      | _, _, _ => none
    else
      some 1

/-- twoThreeTreeCountNodes (tree_manager.c): 0 for an empty tree, else the
recursive node count from the root. -/
def twoThreeTreeCountNodes (fuel : Nat) (f : IndexFile) : Option Int :=
  let rootAddress := getRootAddress f
  if rootAddress = -1 then some 0
  else
    match loadNode23 f rootAddress with
    | none => none
    | some root => twoThreeTreeCountNodesRec fuel f root

/-- Book from `book.h`: the fixed-schema record.  The three C `char[]`
fields are carried as their string contents and `double price` as its 8-byte
on-disk image `priceBits`; the core only ever copies these fields whole. -/
structure Book where
  code : Int
  title : String
  author : String
  publisher : String
  edition : Int
  year : Int
  priceBits : Int
  stock_quantity : Int
deriving DecidableEq

/-- BookDataFileHeader from `book_data_file.h` (2 consecutive C `int`s). -/
structure BookDataFileHeader where
  firstEmptyPosition : Int
  headEmptyPosition : Int
deriving DecidableEq

/-- Size in bytes of a `Book` on disk (`sizeof(Book)` with alignment 8). -/
def bookSize : Int := 432

/-- Size in bytes of a `BookDataFileHeader` on disk (2 ints). -/
def dataHeaderSize : Int := 8

/-- The open data file: header at offset 0, records by slot index (slot `i`
lives at byte `dataHeaderSize + i * bookSize`), the 8-byte `BookDataFreeNode`
image readable at each freed slot, and the file size in bytes. -/
structure DataFile where
  header : BookDataFileHeader
  slots : List (Int × Book)
  freeNext : List (Int × Int)
  size : Int
deriving DecidableEq

/-- Read the `Book` stored at a slot index, as `showBookInfo`'s `fread` does
after seeking to `sizeof(BookDataFileHeader) + offset * sizeof(Book)`;
`none` when no record was written at that slot (a failed or indeterminate
read). -/
def readBookAtSlot (d : DataFile) (slot : Int) : Option Book :=
  d.slots.lookup slot

/-- Write a `Book` at a slot index (`fseek` to the slot then `fwrite`),
extending the file when the slot is past its end and overwriting any
free-node image the slot held. -/
def writeBook (d : DataFile) (slot : Int) (b : Book) : DataFile :=
  { d with
    slots := (slot, b) :: d.slots.filter (fun p => p.1 != slot)
    freeNext := d.freeNext.filter (fun p => p.1 != slot)
    size := max d.size (dataHeaderSize + (slot + 1) * bookSize) }

/-- getBookOffset (book_manager.c): the value of `twoThreeTreeSearch` is
returned unchanged (the source compares it against `-1` and passes it on),
so this is the tree-search result itself.  Note the searched value is a node
offset in the index file, not a data-file slot. -/
def getBookOffset (fuel : Nat) (f : IndexFile) (key : Int) : SearchResult :=
  twoThreeTreeSearch fuel f key

/-- showBookInfo (book_manager.c): seek to
`sizeof(BookDataFileHeader) + offset * sizeof(Book)` in the data file, read
one `Book` there and print it; the record read (`none` when the read fails). -/
def showBookInfo (d : DataFile) (offset : Int) : Option Book :=
  readBookAtSlot d offset

/-- printBookData (book_manager.c) embeds the `lookup(code)` operation: the
offset from `getBookOffset`, then `showBookInfo` at that offset; `none` when
the book is reported not found or the reads fail.  (The source passes one
`FILE *` for both roles; the embedding charitably gives `getBookOffset` the
index file and `showBookInfo` the data file.) -/
def printBookData (fuel : Nat) (d : DataFile) (f : IndexFile) (code : Int) : Option Book :=
  match getBookOffset fuel f code with
  | .found offset => showBookInfo d offset
  | _ => none

/-- Outcome of `addBookAux`, which returns `void` and reports through
`printf`: `ok` is the success message, `duplicateKey` the early return on
"Livro com o código ... já existe no índice". -/
inductive AddResult where
  | ok
  | duplicateKey
deriving DecidableEq

/-- addBookAux (book_manager.c): reject a code the index search finds
(before any file read or write); otherwise pop the data free list (reading
the freed slot's next pointer and rewriting the data header) or derive the
append slot from `ftell(SEEK_END) / sizeof(Book)`; write the record; insert
`(code, slot)` into the tree; then — reproducing the source — bump the index
header's `rootAddress` to `offset + 1` whenever the data-slot index is at
least the root address, and rewrite the index header. -/
def addBookAux (fuel : Nat) (dataFile : DataFile) (indexFile : IndexFile) (book : Book) :
    Option (DataFile × IndexFile × AddResult) :=
  match getBookOffset fuel indexFile book.code with
  | .found _ => some (dataFile, indexFile, .duplicateKey)
  | .badRead _ => none
  | .outOfFuel => none
  | .emptyTree =>
    let dataHeader := dataFile.header
    let indexHeader := indexFile.header
    let step :
        Option (DataFile × Int) :=
      if dataHeader.headEmptyPosition ≠ -1 then
        let offset := dataHeader.headEmptyPosition
        match dataFile.freeNext.lookup offset with
        | none => none
        | some nextOffset =>
          let dataHeader := { dataHeader with headEmptyPosition := nextOffset }
          let dataFile := { dataFile with header := dataHeader }
          some (dataFile, offset)
      else
        some (dataFile, dataFile.size / bookSize)
    match step with
    | none => none
    | some (dataFile, offset) =>
      let dataFile := writeBook dataFile offset book
      match insertKey fuel indexFile book.code offset indexHeader with
      | none => none
      | some (indexFile, indexHeader, _) =>
        let indexHeader :=
          if offset ≥ indexHeader.rootAddress then
            { indexHeader with rootAddress := offset + 1 }
          else indexHeader
        let indexFile := saveIndexHeader indexFile indexHeader
        some (dataFile, indexFile, .ok)

/-- calcularTotalLivrosRegistrados (book_manager.c): the "total books
registered" observer is exactly `twoThreeTreeCountNodes` on the index file. -/
def calcularTotalLivrosRegistrados (fuel : Nat) (indexFile : IndexFile) : Option Int :=
  twoThreeTreeCountNodes fuel indexFile

/-- The observer the specification requires in its stead (spec section 4.6
words: "return the key count (sum of `nKeys` over all nodes), not the node
count"): a full recursive descent summing `nKeys`. -/
def specTotalKeysRec : Nat → IndexFile → Node23 → Option Int
  | 0, _, _ => none
  | fuel + 1, f, node =>
    if node.left_child = -1 then some node.nKeys
    else if node.nKeys = 1 then
      match loadNode23 f node.left_child, loadNode23 f node.middle_child with
      | some l, some m =>
        match specTotalKeysRec fuel f l, specTotalKeysRec fuel f m with
        | some sl, some sm => some (node.nKeys + sl + sm)
        | _, _ => none
      | _, _ => none
    else
      match loadNode23 f node.left_child, loadNode23 f node.middle_child,
          loadNode23 f node.right_child with
      | some l, some m, some r =>
        match specTotalKeysRec fuel f l, specTotalKeysRec fuel f m, specTotalKeysRec fuel f r with
        | some sl, some sm, some sr => some (node.nKeys + sl + sm + sr)
        | _, _, _ => none
      | _, _, _ => none

/-- The spec-required key-count observer at the root (0 for an empty tree). -/
def specTotalKeys (fuel : Nat) (f : IndexFile) : Option Int :=
  if getRootAddress f = -1 then some 0
  else
    match loadNode23 f (getRootAddress f) with
    | none => none
    | some root => specTotalKeysRec fuel f root

/-- The index file as a byte store, for the on-disk node codec: the byte
stored at each offset. -/
def ByteFile : Type := Int → Nat

/-- The 4-byte little-endian two's-complement image of a C `int`. -/
def encInt32 (x : Int) : List Nat :=
  let u := (x % 4294967296).toNat
  [u % 256, u / 256 % 256, u / 65536 % 256, u / 16777216 % 256]

/-- Decode a C `int` from its 4 little-endian bytes. -/
def decInt32 (b0 b1 b2 b3 : Nat) : Int :=
  let u : Nat := b0 + 256 * b1 + 65536 * b2 + 16777216 * b3
  if u < 2147483648 then (u : Int) else (u : Int) - 4294967296

/-- The 32-byte image `fwrite(node, sizeof(Node23), 1, ...)` stores: the
eight `int` fields in declaration order, each little-endian. -/
def encodeNode23 (n : Node23) : List Nat :=
  encInt32 n.nKeys ++ encInt32 n.left_key ++ encInt32 n.right_key ++
    encInt32 n.leftBook ++ encInt32 n.rightBook ++ encInt32 n.left_child ++
    encInt32 n.middle_child ++ encInt32 n.right_child

/-- Store a list of bytes starting at `off` (the effect of `fwrite` after
`fseek` to `off`). -/
def writeBytes (f : ByteFile) (off : Int) (bs : List Nat) : ByteFile :=
  fun x => if off ≤ x ∧ x < off + bs.length then bs.getD (x - off).toNat 0 else f x

/-- saveNode at the byte level: `fseek(indexFile, offset, SEEK_SET)` then
`fwrite(node, sizeof(Node23), 1, indexFile)` — the node's 32-byte image is
stored at `offset`. -/
def saveNodeImage (f : ByteFile) (offset : Int) (node : Node23) : ByteFile :=
  writeBytes f offset (encodeNode23 node)

/-- Read the `int` whose 4 bytes start at `off`. -/
def readInt32 (f : ByteFile) (off : Int) : Int :=
  decInt32 (f off) (f (off + 1)) (f (off + 2)) (f (off + 3))

/-- loadNode23 at the byte level: `fseek` then `fread` of one `Node23` — the
eight fields are decoded from the 32 bytes at `offset` in declaration
order. -/
def loadNode23Image (f : ByteFile) (offset : Int) : Node23 :=
  { nKeys := readInt32 f offset
    left_key := readInt32 f (offset + 4)
    right_key := readInt32 f (offset + 8)
    leftBook := readInt32 f (offset + 12)
    rightBook := readInt32 f (offset + 16)
    left_child := readInt32 f (offset + 20)
    middle_child := readInt32 f (offset + 24)
    right_child := readInt32 f (offset + 28) }

/-- All eight fields of a node are within the range of a C 32-bit `int`
(they are `int`s in the source, so this always holds of a real node). -/
def Node23.int32Range (n : Node23) : Prop :=
  (-2147483648 ≤ n.nKeys ∧ n.nKeys < 2147483648) ∧
  (-2147483648 ≤ n.left_key ∧ n.left_key < 2147483648) ∧
  (-2147483648 ≤ n.right_key ∧ n.right_key < 2147483648) ∧
  (-2147483648 ≤ n.leftBook ∧ n.leftBook < 2147483648) ∧
  (-2147483648 ≤ n.rightBook ∧ n.rightBook < 2147483648) ∧
  (-2147483648 ≤ n.left_child ∧ n.left_child < 2147483648) ∧
  (-2147483648 ≤ n.middle_child ∧ n.middle_child < 2147483648) ∧
  (-2147483648 ≤ n.right_child ∧ n.right_child < 2147483648)

instance (n : Node23) : Decidable n.int32Range := by
  unfold Node23.int32Range; infer_instance

/-- A well-formed 2-3 subtree of the index file at a byte offset:
`Wf f off ks h` says the nodes reachable from `off` form a 2-3 tree of
height `h` whose in-order key sequence is `ks`, with ordered keys and all
children present on internal nodes — the invariants of spec section 3. -/
inductive Wf (f : IndexFile) : Int → List Int → Nat → Prop where
  | leaf1 {off : Int} {n : Node23}
      (hload : loadNode23 f off = some n)
      (hn : n.nKeys = 1) (hlf : n.left_child = -1) :
      Wf f off [n.left_key] 1
  | leaf2 {off : Int} {n : Node23}
      (hload : loadNode23 f off = some n)
      (hn : n.nKeys = 2) (hlf : n.left_child = -1)
      (hord : n.left_key < n.right_key) :
      Wf f off [n.left_key, n.right_key] 1
  | node1 {off : Int} {n : Node23} {ksL ksM : List Int} {h : Nat}
      (hload : loadNode23 f off = some n)
      (hn : n.nKeys = 1) (hlf : n.left_child ≠ -1)
      (hL : Wf f n.left_child ksL h) (hM : Wf f n.middle_child ksM h)
      (hbL : ∀ k ∈ ksL, k < n.left_key)
      (hbM : ∀ k ∈ ksM, n.left_key < k) :
      Wf f off (ksL ++ n.left_key :: ksM) (h + 1)
  | node2 {off : Int} {n : Node23} {ksL ksM ksR : List Int} {h : Nat}
      (hload : loadNode23 f off = some n)
      (hn : n.nKeys = 2) (hlf : n.left_child ≠ -1)
      (hord : n.left_key < n.right_key)
      (hL : Wf f n.left_child ksL h) (hM : Wf f n.middle_child ksM h)
      (hR : Wf f n.right_child ksR h)
      (hbL : ∀ k ∈ ksL, k < n.left_key)
      (hbM : ∀ k ∈ ksM, n.left_key < k ∧ k < n.right_key)
      (hbR : ∀ k ∈ ksR, n.right_key < k) :
      Wf f off (ksL ++ n.left_key :: (ksM ++ n.right_key :: ksR)) (h + 1)

/-- A freshly created index file: the header `createIndexFileHeader`
(file_manager.c) writes — empty tree, no free nodes — and nothing else. -/
def emptyIndexFile : IndexFile :=
  ⟨⟨-1, 0, -1⟩, [], 12⟩

/-- A freshly created data file: the header `createBookDataFileHeader`
(file_manager.c) writes, and no records. -/
def emptyDataFile : DataFile :=
  ⟨⟨0, -1⟩, [], [], 8⟩

/-- A sample record with code 1. -/
def sampleBook : Book :=
  ⟨1, "Dom Casmurro", "Machado de Assis", "Garnier", 1, 1899, 0, 5⟩

/-- A single 1-key leaf holding key 10 (its record in data slot 0). -/
def node10 : Node23 :=
  ⟨1, 10, -1, 0, -1, -1, -1, -1⟩

/-- An index file whose tree is the single leaf `node10` at offset 12. -/
def oneLeafIndexFile : IndexFile :=
  ⟨⟨12, 0, -1⟩, [(12, node10)], 44⟩

/-- A record whose code 10 is already indexed by `oneLeafIndexFile`. -/
def bookTen : Book :=
  ⟨10, "Quincas Borba", "Machado de Assis", "Garnier", 1, 1891, 0, 2⟩

/-- A single leaf holding the two keys 10 and 20. -/
def twoKeyLeaf : Node23 :=
  ⟨2, 10, 20, 0, 1, -1, -1, -1⟩

/-- An index file whose tree is the single 2-key leaf `twoKeyLeaf`. -/
def twoKeyLeafFile : IndexFile :=
  ⟨⟨12, 0, -1⟩, [(12, twoKeyLeaf)], 44⟩

/-- A free node at offset 40 whose `left_child` links to the next free node
at offset 80 (the free-list encoding of `createNode23`). -/
def freeNode40 : Node23 :=
  ⟨0, -1, -1, -1, -1, 80, -1, -1⟩

/-- The last free node, at offset 80 (`left_child = -1` ends the list). -/
def freeNode80 : Node23 :=
  ⟨0, -1, -1, -1, -1, -1, -1, -1⟩

/-- An index file whose free list is 40 → 80 → end. -/
def freeListFile : IndexFile :=
  ⟨⟨-1, 0, 40⟩, [(40, freeNode40), (80, freeNode80)], 112⟩

/-- The in-memory header matching `freeListFile`: free-list head 40. -/
def freeListHeader : IndexFileHeader :=
  ⟨-1, 0, 40⟩

/-- A 2-key internal root: keys 10 and 20, children at 44, 76, 108. -/
def internalRoot : Node23 :=
  ⟨2, 10, 20, 0, 1, 44, 76, 108⟩

/-- Leaf holding key 5 (left subtree of `internalRoot`). -/
def leafFive : Node23 :=
  ⟨1, 5, -1, 2, -1, -1, -1, -1⟩

/-- Leaf holding key 15 (middle subtree of `internalRoot`). -/
def leafFifteen : Node23 :=
  ⟨1, 15, -1, 3, -1, -1, -1, -1⟩

/-- Leaf holding key 25 (right subtree of `internalRoot`). -/
def leafTwentyFive : Node23 :=
  ⟨1, 25, -1, 4, -1, -1, -1, -1⟩

/-- The index file for the tree `internalRoot` over its three leaves. -/
def threeLeafFile : IndexFile :=
  ⟨⟨12, 0, -1⟩, [(12, internalRoot), (44, leafFive), (76, leafFifteen), (108, leafTwentyFive)], 140⟩

/-- The in-memory state of a root drained to zero keys by a merge that
propagated to it: its only remaining child is at offset 44. -/
def emptyRootNode : Node23 :=
  ⟨0, -1, -1, -1, -1, 44, -1, -1⟩

/-- The merged child the drained root still points to. -/
def mergedChild : Node23 :=
  ⟨2, 5, 15, 2, 3, -1, -1, -1⟩

/-- The index file at the moment deletion underflow reaches the root. -/
def collapseFile : IndexFile :=
  ⟨⟨12, 0, -1⟩, [(12, emptyRootNode), (44, mergedChild)], 76⟩

/-- The in-memory header at that moment. -/
def collapseHeader : IndexFileHeader :=
  ⟨12, 0, -1⟩

/-- A 1-key internal parent: key 20, children at 44 and 76, `right_child`
rightly `-1`. -/
def oneKeyParent : Node23 :=
  ⟨1, 20, -1, 0, -1, 44, 76, -1⟩

/-- An index file whose root is the 1-key internal `oneKeyParent`. -/
def oneKeyParentFile : IndexFile :=
  ⟨⟨12, 0, -1⟩, [(12, oneKeyParent), (44, leafFive), (76, leafTwentyFive)], 108⟩

/-- An all-zero byte file, for the codec round trip. -/
def zeroByteFile : ByteFile :=
  fun _ => 0

/-- A sample node with the sentinel `-1` in several fields. -/
def sampleNode : Node23 :=
  ⟨1, 7, -1, 0, -1, -1, -1, -1⟩

/-- The index file after splitting `twoKeyLeaf` with incoming key 30: the
new right sibling ⟨30⟩ was created at offset 44. -/
def splitResultFile : IndexFile :=
  ⟨⟨12, 0, -1⟩, [(44, ⟨1, 30, -1, 5, -1, -1, -1, -1⟩), (12, twoKeyLeaf)], 76⟩

/-- The shrunken original node that split leaves in memory: key 10 only. -/
def splitResultParent : Node23 :=
  ⟨1, 10, -1, 0, -1, -1, -1, 44⟩

/-- Reading back the offset `saveNode` just wrote yields the saved node. -/
theorem loadNode23_saveNode (f : IndexFile) (off : Int) (n : Node23) :
    loadNode23 (saveNode f off n) off = some n := by
  simp [loadNode23, saveNode, List.lookup]

/-- Rewriting the header leaves every node read unchanged. -/
theorem loadNode23_saveIndexHeader (f : IndexFile) (h : IndexFileHeader) (off : Int) :
    loadNode23 (saveIndexHeader f h) off = loadNode23 f off :=
  rfl

/-- A successful `createNode23` leaves the requested node readable at the
offset it returns. -/
theorem createNode23_load {f : IndexFile} {a b c d e g i n : Int} {hdr : IndexFileHeader}
    {f' : IndexFile} {h' : IndexFileHeader} {off : Int}
    (hc : createNode23 f a b c d e g i n hdr = some (f', h', off)) :
    loadNode23 f' off = some ⟨n, a, b, c, d, e, g, i⟩ := by
  unfold createNode23 at hc
  split at hc
  · cases hload : loadNode23 f hdr.headEmptyPosition with
    | none => rw [hload] at hc; exact absurd hc (by simp)
    | some freeNode =>
      rw [hload] at hc
      simp only [Option.some.injEq, Prod.mk.injEq] at hc
      obtain ⟨rfl, -, rfl⟩ := hc
      rw [loadNode23_saveIndexHeader, loadNode23_saveNode]
  · simp only [Option.some.injEq, Prod.mk.injEq] at hc
    obtain ⟨rfl, -, rfl⟩ := hc
    rw [loadNode23_saveIndexHeader, loadNode23_saveNode]

/-- C1.  `add(r)` succeeds on an empty store, placing the record in data
slot 0 and its key in the tree node written at index-file offset 12; but
`lookup(r.code)` then feeds that node offset, 12, to `showBookInfo` as if it
were a data-file slot, so it reads slot 12 — not slot 0 — and does not
return the added record. -/
theorem lookup_after_add_reads_wrong_slot :
    (addBookAux 16 emptyDataFile emptyIndexFile sampleBook).map
        (fun r => (r.2.2, printBookData 16 r.1 r.2.1 sampleBook.code,
          getBookOffset 16 r.2.1 sampleBook.code, readBookAtSlot r.1 0))
      = some (.ok, none, .found 12, some sampleBook) := by
  decide

/-- C2.  On the empty tree the search returns `-1` (not found); but on a
single-leaf tree holding key 10, searching the absent key 20 does not stop
at the leaf: it recurses into the leaf's `-1` middle child and reads a node
at offset `-1` (undefined behaviour), reporting nothing. -/
theorem search_absent_key_descends_into_invalid_child :
    twoThreeTreeSearch 10 emptyIndexFile 20 = .emptyTree
    ∧ searchNode 10 oneLeafIndexFile 12 20 = .badRead (-1)
    ∧ twoThreeTreeSearch 10 oneLeafIndexFile 20 = .badRead (-1) := by
  decide

/-- C4.  On a tree whose single leaf holds the two keys 10 and 20 the
spec-required observer (key count) is 2, while the source's observer counts
one per node and — lacking a leaf base case — recurses into the leaf's `-1`
children and reads nodes at offset `-1` (undefined behaviour), so it cannot
return the key count on any non-empty tree. -/
theorem totalLivros_counts_nodes_not_keys :
    specTotalKeys 10 twoKeyLeafFile = some 2
    ∧ calcularTotalLivrosRegistrados 10 twoKeyLeafFile = none
    ∧ calcularTotalLivrosRegistrados 10 emptyIndexFile = some 0 := by
  decide

/-- C5.  With free list 40 → 80, `createNode23` advances the header past the
old head 40 and then returns — and writes the node at — the already-advanced
head 80, clobbering the next free node, instead of returning the old head 40. -/
theorem createNode23_returns_advanced_head :
    freeListHeader.headEmptyPosition = 40
    ∧ (createNode23 freeListFile 7 (-1) 3 (-1) (-1) (-1) (-1) 1 freeListHeader).map
        (fun r => (r.2.2, r.2.1.headEmptyPosition, (loadNode23 r.1 80).map Node23.left_key))
      = some (80, 80, some 7) := by
  decide

/-- C6.  Removing key 10 from the 2-key internal root ⟨10, 20⟩: the in-order
successor is 15, the minimum of the subtree under the child immediately to
the right of 10 (the middle child, offset 76) — as `findMinInSubtree` itself
confirms — but `findInOrderSuccessor` descends the node's `right_child` and
returns 25; and `replaceKey` swaps only the key, leaving the removed key's
record-slot pointer in place. -/
theorem successor_uses_wrong_subtree :
    findInOrderSuccessor 10 threeLeafFile internalRoot 10 = some 25
    ∧ internalRoot.middle_child = 76
    ∧ loadNode23 threeLeafFile 76 = some leafFifteen
    ∧ findMinInSubtree 10 threeLeafFile leafFifteen = some 15
    ∧ (replaceKey internalRoot 10 15).1.leftBook = internalRoot.leftBook := by
  decide

/-- C7.  When deletion underflow reaches the root (zero keys, one remaining
child at offset 44), `handleLeafUnderflow` sets `rootAddress` to `-1` —
discarding the child instead of promoting it — and leaves the free list
untouched (the root's offset 12 is never released); this holds whatever the
repository's missing `redistributeKeys`/`mergeNodes` do, since the root
branch never reaches them.  `handleEmptyNode`, the only release site, cannot
push a node either: with free-list head 40 it links the head to itself and
leaves the header unchanged (it is never even told the node's offset). -/
theorem root_collapse_discards_child_and_frees_nothing :
    ∀ redistribute merge : Node23 → Node23 → Node23 → Int → Node23 × Node23 × Node23,
      handleLeafUnderflow redistribute merge 5 collapseFile 12 emptyRootNode collapseHeader 5
        = some (saveIndexHeader collapseFile ⟨-1, 0, -1⟩, emptyRootNode, ⟨-1, 0, -1⟩)
      ∧ (handleEmptyNode collapseFile emptyRootNode ⟨12, 0, 40⟩).2.2 = ⟨12, 0, 40⟩ := by
  intro redistribute merge
  exact ⟨rfl, rfl⟩

/-- C9 counterexample.  For the 1-key parent at offset 12 (children 44 and
76, `right_child` rightly `-1`) with underflowing left child 44, the claim
selects the middle child 76; `findSibling` instead fails its all-children
guard and returns `-1`. -/
theorem findSibling_one_key_parent_counterexample :
    findSibling oneKeyParentFile 12 44 ⟨12, 0, -1⟩ = some (-1)
    ∧ oneKeyParent.middle_child = 76
    ∧ ¬ findSibling oneKeyParentFile 12 44 ⟨12, 0, -1⟩ = some 76 := by
  decide

/-- A byte of a just-written range reads back from the written list. -/
theorem writeBytes_getD (f : ByteFile) (off : Int) (bs : List Nat) (k : Nat)
    (hk : k < bs.length) :
    writeBytes f off bs (off + (k : Int)) = bs.getD k 0 := by
  unfold writeBytes
  rw [if_pos ⟨by omega, by omega⟩]
  have hx : (off + (k : Int) - off).toNat = k := by omega
  rw [hx]

/-- Reading a 4-byte `int` out of a just-written range. -/
theorem readInt32_writeBytes (f : ByteFile) (off : Int) (bs : List Nat) (j : Nat)
    (hj : j + 4 ≤ bs.length) :
    readInt32 (writeBytes f off bs) (off + (j : Int)) =
      decInt32 (bs.getD j 0) (bs.getD (j + 1) 0) (bs.getD (j + 2) 0) (bs.getD (j + 3) 0) := by
  have r0 := writeBytes_getD f off bs j (by omega)
  have r1 := writeBytes_getD f off bs (j + 1) (by omega)
  have r2 := writeBytes_getD f off bs (j + 2) (by omega)
  have r3 := writeBytes_getD f off bs (j + 3) (by omega)
  unfold readInt32
  rw [show off + (j : Int) + 1 = off + ((j + 1 : Nat) : Int) by push_cast; ring,
    show off + (j : Int) + 2 = off + ((j + 2 : Nat) : Int) by push_cast; ring,
    show off + (j : Int) + 3 = off + ((j + 3 : Nat) : Int) by push_cast; ring,
    r0, r1, r2, r3]

/-- Decoding the 4 bytes produced by `encInt32` recovers any `int`-ranged
value. -/
theorem decInt32_encInt32 (x : Int) (h1 : -2147483648 ≤ x) (h2 : x < 2147483648) :
    decInt32 ((x % 4294967296).toNat % 256) ((x % 4294967296).toNat / 256 % 256)
      ((x % 4294967296).toNat / 65536 % 256) ((x % 4294967296).toNat / 16777216 % 256) = x := by
  simp only [decInt32]
  split_ifs <;> omega

/-- The encoded node image is 32 bytes long. -/
theorem encodeNode23_length (n : Node23) : (encodeNode23 n).length = 32 := by
  simp [encodeNode23, encInt32]

/-- C10.  The node codec round-trips: writing any `int`-ranged node at any
(valid, non-negative) byte offset and reading the same offset back recovers
the node in every field. -/
theorem node_codec_round_trip (f : ByteFile) (off : Int) (n : Node23)
    (hrange : n.int32Range) (hoff : 0 ≤ off) :
    loadNode23Image (saveNodeImage f off n) off = n := by
  clear hoff
  obtain ⟨h0, h1, h2, h3, h4, h5, h6, h7⟩ := hrange
  obtain ⟨v0, v1, v2, v3, v4, v5, v6, v7⟩ := n
  have hread : ∀ j : Nat, j + 4 ≤ 32 →
      readInt32 (saveNodeImage f off ⟨v0, v1, v2, v3, v4, v5, v6, v7⟩) (off + (j : Int)) =
        decInt32 ((encodeNode23 ⟨v0, v1, v2, v3, v4, v5, v6, v7⟩).getD j 0)
          ((encodeNode23 ⟨v0, v1, v2, v3, v4, v5, v6, v7⟩).getD (j + 1) 0)
          ((encodeNode23 ⟨v0, v1, v2, v3, v4, v5, v6, v7⟩).getD (j + 2) 0)
          ((encodeNode23 ⟨v0, v1, v2, v3, v4, v5, v6, v7⟩).getD (j + 3) 0) := by
    intro j hj
    unfold saveNodeImage
    exact readInt32_writeBytes f off _ j (by rw [encodeNode23_length]; exact hj)
  have e0 := hread 0 (by norm_num)
  have e1 := hread 4 (by norm_num)
  have e2 := hread 8 (by norm_num)
  have e3 := hread 12 (by norm_num)
  have e4 := hread 16 (by norm_num)
  have e5 := hread 20 (by norm_num)
  have e6 := hread 24 (by norm_num)
  have e7 := hread 28 (by norm_num)
  simp only [encodeNode23, encInt32, List.getD, List.append_assoc, List.cons_append,
    List.nil_append, List.getElem?_cons_zero, List.getElem?_cons_succ,
    Option.getD_some] at e0 e1 e2 e3 e4 e5 e6 e7
  norm_num at e0 e1 e2 e3 e4 e5 e6 e7
  unfold loadNode23Image
  simp only [Node23.mk.injEq]
  refine ⟨?_, ?_, ?_, ?_, ?_, ?_, ?_, ?_⟩
  · rw [e0]; exact decInt32_encInt32 v0 h0.1 h0.2
  · rw [e1]; exact decInt32_encInt32 v1 h1.1 h1.2
  · rw [e2]; exact decInt32_encInt32 v2 h2.1 h2.2
  · rw [e3]; exact decInt32_encInt32 v3 h3.1 h3.2
  · rw [e4]; exact decInt32_encInt32 v4 h4.1 h4.2
  · rw [e5]; exact decInt32_encInt32 v5 h5.1 h5.2
  · rw [e6]; exact decInt32_encInt32 v6 h6.1 h6.2
  · rw [e7]; exact decInt32_encInt32 v7 h7.1 h7.2

/-- C10 witness: the round trip evaluated for `sampleNode` at offset 12 of
the zero file. -/
theorem node_codec_round_trip_witness :
    sampleNode.int32Range ∧ (0 : Int) ≤ 12 ∧
      loadNode23Image (saveNodeImage zeroByteFile 12 sampleNode) 12 = sampleNode :=
  ⟨by decide, by decide,
    node_codec_round_trip zeroByteFile 12 sampleNode (by decide) (by decide)⟩

/-- C8.  For any run of `splitNode` on a full node (`nKeys = 2`, keys
`L < R`) receiving key `I`, the middle of `{L, R, I}` is promoted, the
smallest stays in the shrunken original node, and the largest becomes the
left key of the newly created right sibling: `I > R` promotes `R` (node
keeps `L`, sibling gets `I`); `L ≤ I ≤ R` promotes `I` (node keeps `L`,
sibling gets `R`); `I < L` promotes `L` (node keeps `I`, sibling gets `R`). -/
theorem splitNode_promotes_middle_key
    (f : IndexFile) (off : Int) (p : Node23) (key sub lb rb : Int) (hdr : IndexFileHeader)
    (f' : IndexFile) (hdr' : IndexFileHeader) (p' : Node23) (pk ro : Int)
    (hkeys : p.nKeys = 2) (hord : p.left_key < p.right_key)
    (hrun : splitNode f off p key sub hdr lb rb = some (f', hdr', p', pk, ro)) :
    (p.right_key < key →
      pk = p.right_key ∧ p'.nKeys = 1 ∧ p'.left_key = p.left_key ∧
        (loadNode23 f' ro).map Node23.left_key = some key)
    ∧ (p.left_key ≤ key ∧ key ≤ p.right_key →
      pk = key ∧ p'.nKeys = 1 ∧ p'.left_key = p.left_key ∧
        (loadNode23 f' ro).map Node23.left_key = some p.right_key)
    ∧ (key < p.left_key →
      pk = p.left_key ∧ p'.nKeys = 1 ∧ p'.left_key = key ∧
        (loadNode23 f' ro).map Node23.left_key = some p.right_key) := by
  clear hkeys
  unfold splitNode at hrun
  split at hrun
  · rename_i hgt
    cases hc : createNode23 f key (-1) rb (-1) sub (-1) (-1) 1 hdr with
    | none => rw [hc] at hrun; exact absurd hrun (by simp)
    | some res =>
      obtain ⟨f1, h1, ro1⟩ := res
      rw [hc] at hrun
      simp only [Option.some.injEq, Prod.mk.injEq] at hrun
      obtain ⟨rfl, rfl, rfl, rfl, rfl⟩ := hrun
      refine ⟨fun _ => ⟨rfl, rfl, rfl, ?_⟩,
        fun hc2 => absurd hc2.2 (by omega), fun hc3 => absurd hc3 (by omega)⟩
      rw [createNode23_load hc]; rfl
  · rename_i hng
    split at hrun
    · rename_i hge
      cases hc : createNode23 f p.right_key (-1) p.rightBook (-1) (-1) (-1) (-1) 1 hdr with
      | none => rw [hc] at hrun; exact absurd hrun (by simp)
      | some res =>
        obtain ⟨f1, h1, ro1⟩ := res
        rw [hc] at hrun
        simp only [Option.some.injEq, Prod.mk.injEq] at hrun
        obtain ⟨rfl, rfl, rfl, rfl, rfl⟩ := hrun
        refine ⟨fun hc1 => absurd hc1 (by omega),
          fun _ => ⟨rfl, rfl, rfl, ?_⟩, fun hc3 => absurd hc3 (by omega)⟩
        rw [createNode23_load hc]; rfl
    · rename_i hlt
      cases hc : createNode23 f p.right_key (-1) p.rightBook (-1) (-1) (-1) (-1) 1 hdr with
      | none => rw [hc] at hrun; exact absurd hrun (by simp)
      | some res =>
        obtain ⟨f1, h1, ro1⟩ := res
        rw [hc] at hrun
        simp only [Option.some.injEq, Prod.mk.injEq] at hrun
        obtain ⟨rfl, rfl, rfl, rfl, rfl⟩ := hrun
        refine ⟨fun hc1 => absurd hc1 (by omega),
          fun hc2 => absurd hc2.1 (by omega), fun _ => ⟨rfl, rfl, rfl, ?_⟩⟩
        rw [createNode23_load hc]; rfl

/-- C8 witness: splitting `twoKeyLeaf` (keys 10 < 20) with incoming key 30
promotes 20, keeps 10 in the shrunken node, and puts 30 in the new right
sibling at offset 44. -/
theorem splitNode_promotes_middle_key_witness :
    twoKeyLeaf.nKeys = 2 ∧ twoKeyLeaf.left_key < twoKeyLeaf.right_key ∧
      ((20 : Int) = twoKeyLeaf.right_key ∧ splitResultParent.nKeys = 1 ∧
        splitResultParent.left_key = twoKeyLeaf.left_key ∧
        (loadNode23 splitResultFile 44).map Node23.left_key = some 30) := by
  have h := splitNode_promotes_middle_key twoKeyLeafFile 12 twoKeyLeaf 30 (-1) 0 5 ⟨12, 0, -1⟩
    splitResultFile ⟨12, 0, -1⟩ splitResultParent 20 44 (by decide) (by decide) (by decide)
  exact ⟨by decide, by decide, h.1 (by decide)⟩

/-- On a well-formed subtree, searching any key of its in-order sequence
succeeds, given fuel at least the subtree's height. -/
theorem searchNode_finds {f : IndexFile} {off : Int} {ks : List Int} {h : Nat}
    (hwf : Wf f off ks h) :
    ∀ key ∈ ks, ∀ fuel : Nat, h ≤ fuel →
      ∃ r, searchNode fuel f off key = .found r := by
  induction hwf with
  | @leaf1 off n hload hn hlf =>
    intro key hkey fuel hfuel
    obtain ⟨m, rfl⟩ : ∃ m, fuel = m + 1 := ⟨fuel - 1, by omega⟩
    simp only [List.mem_singleton] at hkey
    subst hkey
    exact ⟨off, by simp [searchNode, hload]⟩
  | @leaf2 off n hload hn hlf hord =>
    intro key hkey fuel hfuel
    obtain ⟨m, rfl⟩ : ∃ m, fuel = m + 1 := ⟨fuel - 1, by omega⟩
    refine ⟨off, ?_⟩
    simp only [List.mem_cons, List.mem_singleton, List.not_mem_nil, or_false] at hkey
    rcases hkey with rfl | rfl
    · simp [searchNode, hload]
    · simp only [searchNode, hload]
      rw [if_neg (by omega), if_pos ⟨hn, trivial⟩]
  | @node1 off n ksL ksM hh hload hn hlf hL hM hbL hbM ihL ihM =>
    intro key hkey fuel hfuel
    obtain ⟨m, rfl⟩ : ∃ m, fuel = m + 1 := ⟨fuel - 1, by omega⟩
    have hm : hh ≤ m := by omega
    rw [List.mem_append] at hkey
    rcases hkey with hkL | hkey
    · have hlt := hbL key hkL
      obtain ⟨r, hr⟩ := ihL key hkL m hm
      refine ⟨r, ?_⟩
      simp only [searchNode, hload]
      rw [if_neg (by omega), if_neg (by omega), if_pos hlt]
      exact hr
    · rcases List.mem_cons.mp hkey with rfl | hkM
      · exact ⟨off, by simp [searchNode, hload]⟩
      · have hgt := hbM key hkM
        obtain ⟨r, hr⟩ := ihM key hkM m hm
        refine ⟨r, ?_⟩
        simp only [searchNode, hload]
        rw [if_neg (by omega), if_neg (by omega), if_neg (by omega), if_pos (Or.inl hn)]
        exact hr
  | @node2 off n ksL ksM ksR hh hload hn hlf hord hL hM hR hbL hbM hbR ihL ihM ihR =>
    intro key hkey fuel hfuel
    obtain ⟨m, rfl⟩ : ∃ m, fuel = m + 1 := ⟨fuel - 1, by omega⟩
    have hm : hh ≤ m := by omega
    rw [List.mem_append] at hkey
    rcases hkey with hkL | hkey
    · have hlt := hbL key hkL
      obtain ⟨r, hr⟩ := ihL key hkL m hm
      refine ⟨r, ?_⟩
      simp only [searchNode, hload]
      rw [if_neg (by omega), if_neg (by omega), if_pos hlt]
      exact hr
    · rcases List.mem_cons.mp hkey with rfl | hkey
      · exact ⟨off, by simp [searchNode, hload]⟩
      · rw [List.mem_append] at hkey
        rcases hkey with hkM | hkey
        · have hmid := hbM key hkM
          obtain ⟨r, hr⟩ := ihM key hkM m hm
          refine ⟨r, ?_⟩
          simp only [searchNode, hload]
          rw [if_neg (by omega), if_neg (by omega), if_neg (by omega),
            if_pos (Or.inr hmid.2)]
          exact hr
        · rcases List.mem_cons.mp hkey with rfl | hkR
          · refine ⟨off, ?_⟩
            simp only [searchNode, hload]
            rw [if_neg (by omega), if_pos ⟨hn, trivial⟩]
          · have hgt := hbR key hkR
            obtain ⟨r, hr⟩ := ihR key hkR m hm
            refine ⟨r, ?_⟩
            simp only [searchNode, hload]
            rw [if_neg (by omega), if_neg (by omega), if_neg (by omega),
              if_neg (by omega)]
            exact hr

/-- C3.  Adding a record whose code is already a key of the (well-formed)
tree fails as a duplicate before touching any state: `addBookAux` returns
with the data file and the index file exactly as they were — no tree node,
header field or data slot modified, no data slot consumed. -/
theorem addBookAux_duplicate_leaves_files_unchanged
    (fuel : Nat) (d : DataFile) (f : IndexFile) (b : Book) (ks : List Int) (h : Nat)
    (hroot : f.header.rootAddress ≠ -1)
    (hwf : Wf f f.header.rootAddress ks h)
    (hmem : b.code ∈ ks)
    (hfuel : h ≤ fuel) :
    addBookAux fuel d f b = some (d, f, .duplicateKey) := by
  obtain ⟨r, hr⟩ := searchNode_finds hwf b.code hmem fuel hfuel
  have hs : getBookOffset fuel f b.code = .found r := by
    unfold getBookOffset twoThreeTreeSearch getRootAddress
    simp only []
    rw [if_neg hroot]
    exact hr
  unfold addBookAux
  rw [hs]

/-- C3 witness: re-adding code 10 to the store whose single-leaf tree
already indexes it changes nothing and reports the duplicate. -/
theorem addBookAux_duplicate_witness :
    addBookAux 2 emptyDataFile oneLeafIndexFile bookTen
      = some (emptyDataFile, oneLeafIndexFile, .duplicateKey) :=
  addBookAux_duplicate_leaves_files_unchanged 2 emptyDataFile oneLeafIndexFile bookTen
    [10] 1 (by decide) (@Wf.leaf1 oneLeafIndexFile 12 node10 (by decide) (by decide) (by decide))
    (by decide) (by decide)

/-- C9 amended.  `findSibling` selects the middle child for an underflowing
left or right child and, for the middle child, the left child when the
parent has one key and the right child otherwise — but only when all three
child pointers are present; when any is `-1` (as `right_child` always is for
a 1-key parent) it returns `-1` instead of selecting a sibling. -/
theorem findSibling_selection_rule
    (f : IndexFile) (pa na : Int) (hdr : IndexFileHeader) (p : Node23)
    (hload : loadNode23 f pa = some p) :
    ((p.left_child = -1 ∨ p.middle_child = -1 ∨ p.right_child = -1) →
      findSibling f pa na hdr = some (-1))
    ∧ (p.left_child ≠ -1 → p.middle_child ≠ -1 → p.right_child ≠ -1 →
      (na = p.left_child → findSibling f pa na hdr = some p.middle_child)
      ∧ (na ≠ p.left_child → na = p.middle_child →
          findSibling f pa na hdr =
            some (if p.nKeys = 1 then p.left_child else p.right_child))
      ∧ (na ≠ p.left_child → na ≠ p.middle_child → na = p.right_child →
          findSibling f pa na hdr = some p.middle_child)) := by
  constructor
  · intro hdeg
    simp only [findSibling, hload]
    rw [if_pos hdeg]
  · intro h1 h2 h3
    have hguard : ¬(p.left_child = -1 ∨ p.middle_child = -1 ∨ p.right_child = -1) := by
      tauto
    refine ⟨?_, ?_, ?_⟩
    · intro hna
      simp only [findSibling, hload]
      rw [if_neg hguard, if_pos hna.symm]
    · intro hne hna
      simp only [findSibling, hload]
      rw [if_neg hguard, if_neg (fun hc => hne hc.symm), if_pos hna.symm]
      split <;> rfl
    · intro hne1 hne2 hna
      simp only [findSibling, hload]
      rw [if_neg hguard, if_neg (fun hc => hne1 hc.symm), if_neg (fun hc => hne2 hc.symm),
        if_pos hna.symm]

/-- C9 witness: in the 2-key parent `internalRoot` (children 44, 76, 108),
the sibling selected for the underflowing left child 44 is the middle child
76. -/
theorem findSibling_selection_rule_witness :
    findSibling threeLeafFile 12 44 ⟨12, 0, -1⟩ = some 76 :=
  ((findSibling_selection_rule threeLeafFile 12 44 ⟨12, 0, -1⟩ internalRoot rfl).2
    (by decide) (by decide) (by decide)).1 (by decide)
